import Mathlib

/-!
Verification of the process-supervision and configuration-reconciliation
layer of the cursor-automation repository.

The JavaScript sources are shallowly embedded: JSON values become the
inductive `JsVal`, JavaScript objects become ordered association lists of
fields (insertion order preserved, later spreads override earlier values,
as in the ECMAScript object-spread semantics), and each script's effectful
behaviour (file writes, process spawns, kill attempts) is embedded as a
pure function producing an explicit trace of events.
-/

namespace CursorAutomation

/-- A JSON / JavaScript value.  Objects are ordered field lists, mirroring
JavaScript property insertion order. -/
inductive JsVal where
  | null : JsVal
  | bool (b : Bool) : JsVal
  | num (n : Int) : JsVal
  | str (s : String) : JsVal
  | arr (elems : List JsVal) : JsVal
  | obj (fields : List (String × JsVal)) : JsVal

/-- Property read, `o[k]`: the first field with the given key (parsed JSON
objects have distinct keys, so this is the JavaScript lookup). -/
def getField : List (String × JsVal) → String → Option JsVal
  | [], _ => none
  | f :: rest, k => if f.1 = k then some f.2 else getField rest k

/-- Property write, `o[k] = v`: JavaScript keeps the original insertion
position of an existing key and appends a brand-new key at the end. -/
def setField (fields : List (String × JsVal)) (k : String) (v : JsVal) :
    List (String × JsVal) :=
  if fields.any (fun f => decide (f.1 = k)) then
    fields.map (fun f => if f.1 = k then (k, v) else f)
  else
    fields ++ [(k, v)]

/-- Object spread `\x7b ...a, ...b \x7d`: keys of `a` first (in order, with
`b`'s value where `b` also has the key), then the keys only `b` has. -/
def spreadFields (a b : List (String × JsVal)) : List (String × JsVal) :=
  a.map (fun f => (f.1, (getField b f.1).getD f.2))
    ++ b.filter (fun f => !(a.any (fun g => decide (g.1 = f.1))))

/-- `delete o[k]`. -/
def deleteField (fields : List (String × JsVal)) (k : String) :
    List (String × JsVal) :=
  fields.filter (fun f => decide (f.1 ≠ k))

/-- JavaScript truthiness of a value (`null`, `false`, `0`, `""` are falsy;
objects and arrays are always truthy). -/
def truthyVal : JsVal → Bool
  | .null => false
  | .bool b => b
  | .num n => decide (n ≠ 0)
  | .str s => decide (s ≠ "")
  | .arr _ => true
  | .obj _ => true

/-- Truthiness of a property read, where an absent property is `undefined`
(falsy). -/
def truthyProp : Option JsVal → Bool
  | none => false
  | some v => truthyVal v

/-! ## Config Store: load (`cursor-mcp-init.js` lines 155-166)

`let mcpConfig = \x7b mcpServers: \x7b\x7d \x7d;` then, if the file exists,
`mcpConfig = JSON.parse(...)` inside a `try`, followed by the
`if (!mcpConfig.mcpServers) mcpConfig.mcpServers = \x7b\x7d;` repair; the
`catch` only prints a warning, leaving the initial document in place.
The input models the on-disk state: `none` when the file does not exist,
`some (.error e)` when `JSON.parse` throws (any non-JSON contents, e.g. an
empty file), `some (.ok v)` when it parses to `v`.  The returned `Bool` is
whether the warning branch ran. -/
def loadConfig : Option (Except String JsVal) → JsVal × Bool
  | none => (.obj [("mcpServers", .obj [])], false)
  | some (.error _) => (.obj [("mcpServers", .obj [])], true)
  -- `JSON.parse` returned `null`: reading `mcpConfig.mcpServers` throws a
  -- TypeError inside the same `try`, so the warning branch runs, and the
  -- already-assigned `null` remains in the variable.
  | some (.ok .null) => (.null, true)
  | some (.ok (.obj fs)) =>
      if truthyProp (getField fs "mcpServers") then (.obj fs, false)
      else (.obj (setField fs "mcpServers" (.obj [])), false)
  -- Primitive parse results: property reads give `undefined` and the
  -- non-strict property assignment is silently ignored.
  | some (.ok v) => (v, false)

/-- The empty ConfigDocument the loader falls back to. -/
def emptyConfigDoc : JsVal := .obj [("mcpServers", .obj [])]

/-! ## Config Store: merge (`cursor-mcp-init.js` lines 169-216)

```
mcpConfig.mcpServers = \x7b filesystem: ..., puppeteer: ..., github: ...,
  webresearch: ..., fetch: ..., sequentialthinking: ...,
  ...mcpConfig.mcpServers \x7d;
if (mcpConfig.mcpServers.htmltomarkdown)
  delete mcpConfig.mcpServers.htmltomarkdown;
```

The incoming server definitions are the literal's own properties, spread
first, and the previously stored `mcpServers` object is spread last, so a
stored entry overrides an incoming one wholesale.  The document is a field
list (the parsed top-level JSON object). -/

/-- The stored `mcpServers` object of a document (after `loadConfig` this is
always an object; a non-object spreads like the empty object for the
value kinds `loadConfig` can produce here). -/
def existingServers (doc : List (String × JsVal)) : List (String × JsVal) :=
  match getField doc "mcpServers" with
  | some (.obj fs) => fs
  | _ => []

/-- One reconciliation step on the `mcpServers` object: incoming literal
first, stored entries spread over it; then `htmltomarkdown` is deleted
when (and only when) its merged value is truthy, as in
`if (mcpConfig.mcpServers.htmltomarkdown) delete ...`. -/
def mergeServersStep (incoming existing : List (String × JsVal)) :
    List (String × JsVal) :=
  if truthyProp (getField (spreadFields incoming existing)
      "htmltomarkdown") then
    deleteField (spreadFields incoming existing) "htmltomarkdown"
  else
    spreadFields incoming existing

/-- The merged `mcpServers` object of a document. -/
def mergedServers (doc incoming : List (String × JsVal)) :
    List (String × JsVal) :=
  mergeServersStep incoming (existingServers doc)

/-- The whole merge step: reassign the `mcpServers` property of the loaded
document, leaving every other top-level property alone. -/
def mergeInit (doc incoming : List (String × JsVal)) :
    List (String × JsVal) :=
  setField doc "mcpServers" (.obj (mergedServers doc incoming))

/-- The incoming server-definition literal of `cursor-mcp-init.js`
(lines 169-209), parameterised by the computed workspace glob. -/
def defaultServers (workspaceGlob : String) : List (String × JsVal) :=
  [ ("filesystem", .obj
      [ ("command", .str "npx"),
        ("args", .arr [.str "-y",
          .str "@modelcontextprotocol/server-filesystem", .str workspaceGlob]),
        ("type", .str "stdio") ]),
    ("puppeteer", .obj
      [ ("command", .str "npx"),
        ("args", .arr [.str "-y",
          .str "@modelcontextprotocol/server-puppeteer"]),
        ("env", .obj
          [ ("PUPPETEER_LAUNCH_OPTIONS",
             .str "\x7b \"headless\": true, \"args\": [\"--no-sandbox\"] \x7d"),
            ("ALLOW_DANGEROUS", .str "true") ]),
        ("type", .str "stdio") ]),
    ("github", .obj
      [ ("command", .str "npx"),
        ("args", .arr [.str "-y",
          .str "@modelcontextprotocol/server-github"]),
        ("type", .str "stdio") ]),
    ("webresearch", .obj
      [ ("command", .str "npx"),
        ("args", .arr [.str "-y", .str "@mzxrai/mcp-webresearch"]),
        ("type", .str "stdio") ]),
    ("fetch", .obj
      [ ("command", .str "npx"),
        ("args", .arr [.str "-y", .str "mcprouter"]),
        ("env", .obj [("SERVER_KEY", .str "928gi2m8xwtay9")]),
        ("type", .str "stdio") ]),
    ("sequentialthinking", .obj
      [ ("command", .str "npx"),
        ("args", .arr [.str "-y", .str "mcprouter"]),
        ("env", .obj [("SERVER_KEY", .str "76e32um8xwucnc")]),
        ("type", .str "stdio") ]) ]

/-! ## Config Store: save (`cursor-mcp-init.js` line 219, `part_018` line 65)

`fs.writeFileSync(mcpConfigPath, JSON.stringify(mcpConfig, null, 2));`

`JSON.stringify(v, null, 2)` is embedded below: objects and arrays print
their members in stored (insertion) order, one per line, indented by two
spaces per depth level. -/

/-- Two spaces per indentation level, as in `JSON.stringify(v, null, 2)`. -/
def indentOf (d : Nat) : String := String.mk (List.replicate (2 * d) ' ')

def hexDigit (n : Nat) : Char := "0123456789abcdef".data.getD n '0'

/-- The JSON escaping `JSON.stringify` applies inside string literals. -/
def escapeChar (c : Char) : String :=
  if c = '"' then "\\\""
  else if c = '\\' then "\\\\"
  else if c = '\n' then "\\n"
  else if c = '\r' then "\\r"
  else if c = '\t' then "\\t"
  else if c = '\x08' then "\\b"
  else if c = '\x0c' then "\\f"
  else if c.toNat < 32 then
    "\\u00" ++ String.mk [hexDigit (c.toNat / 16), hexDigit (c.toNat % 16)]
  else String.mk [c]

def escapeJson (s : String) : String :=
  "\"" ++ String.join (s.data.map escapeChar) ++ "\""

mutual

/-- `JSON.stringify(v, null, 2)` at indentation depth `d`. -/
def stringifyVal (d : Nat) : JsVal → String
  | .null => "null"
  | .bool b => if b then "true" else "false"
  | .num n => toString n
  | .str s => escapeJson s
  | .arr [] => "[]"
  | .arr (x :: xs) =>
      "[\n" ++ String.intercalate ",\n" (stringifyElems (d + 1) (x :: xs))
        ++ "\n" ++ indentOf d ++ "]"
  | .obj [] => "\x7b\x7d"
  | .obj (f :: fs) =>
      "\x7b\n" ++ String.intercalate ",\n" (stringifyFields (d + 1) (f :: fs))
        ++ "\n" ++ indentOf d ++ "\x7d"

def stringifyElems (d : Nat) : List JsVal → List String
  | [] => []
  | x :: xs => (indentOf d ++ stringifyVal d x) :: stringifyElems d xs

def stringifyFields (d : Nat) : List (String × JsVal) → List String
  | [] => []
  | (k, v) :: fs =>
      (indentOf d ++ escapeJson k ++ ": " ++ stringifyVal d v)
        :: stringifyFields d fs

end

def jsonStringify (v : JsVal) : String := stringifyVal 0 v

/-- A file-system action performed by a save. -/
inductive FsOp where
  | write (path content : String) : FsOp
  | rename (src dst : String) : FsOp
deriving DecidableEq

/-- The file-system trace of writing the updated configuration:
`fs.writeFileSync(mcpConfigPath, JSON.stringify(mcpConfig, null, 2))` —
one direct write to the final path. -/
def saveConfigTrace (mcpConfigPath : String) (doc : List (String × JsVal)) :
    List FsOp :=
  [FsOp.write mcpConfigPath (jsonStringify (.obj doc))]

/-- A ProcessManifest value: the `pids` array of
`\x7b name, pid \x7d` records. -/
def manifestVal (entries : List (String × Int)) : JsVal :=
  .arr (entries.map (fun e => .obj [("name", .str e.1), ("pid", .num e.2)]))

/-- The file-system trace of
`fs.writeFileSync(path.join(process.cwd(), 'mcp-pids.json'),
JSON.stringify(pids, null, 2))`. -/
def saveManifestTrace (pidFilePath : String) (entries : List (String × Int)) :
    List FsOp :=
  [FsOp.write pidFilePath (jsonStringify (manifestVal entries))]

/-- Whether a trace has write-temp-then-rename shape onto `finalPath`. -/
def isAtomicSave (tr : List FsOp) (finalPath : String) : Bool :=
  match tr with
  | [FsOp.write tmp _, FsOp.rename src dst] =>
      tmp == src && dst == finalPath && !(tmp == finalPath)
  | _ => false

/-! ## Process Supervisor: spawning and the manifest
(`cursor-mcp-init.js`, second document, `main()` lines 305-385)

The loop spawns each server (collecting `\x7b name, pid \x7d` into the
in-memory `pids` array; a throwing spawn is caught, logged, and skipped)
and only after the loop writes `mcp-pids.json` once.  `res` gives the pid
a spawn attempt produced, `none` when the spawn threw. -/

inductive SupEvent where
  | spawned (name : String) (pid : Nat) : SupEvent
  | spawnFailed (name : String) : SupEvent
  | writeManifest (entries : List (String × Nat)) : SupEvent
deriving DecidableEq

structure StartServer where
  name : String
  command : String
  args : List String
  env : List (String × String)

/-- The `servers` literal of `main()` (lines 322-366). -/
def serversStart (workspaceDir : String) : List StartServer :=
  [ ⟨"Filesystem", "npx",
      ["-y", "@modelcontextprotocol/server-filesystem", workspaceDir], []⟩,
    ⟨"Puppeteer", "npx", ["-y", "@modelcontextprotocol/server-puppeteer"],
      [("PUPPETEER_LAUNCH_OPTIONS",
        "\x7b \"headless\": true, \"args\": [\"--no-sandbox\"] \x7d"),
       ("ALLOW_DANGEROUS", "true")]⟩,
    ⟨"GitHub", "npx", ["-y", "@modelcontextprotocol/server-github"], []⟩,
    ⟨"WebResearch", "npx", ["-y", "@mzxrai/mcp-webresearch"], []⟩,
    ⟨"Fetch", "npx", ["-y", "mcprouter"],
      [("SERVER_KEY", "928gi2m8xwtay9")]⟩,
    ⟨"Sequential", "npx", ["-y", "mcprouter"],
      [("SERVER_KEY", "76e32um8xwucnc")]⟩ ]

/-- The `for (const server of servers)` loop: spawn each, push
`\x7b name, pid \x7d` on success, log and continue on error. -/
def startLoop (res : String → Option Nat) :
    List StartServer → List (String × Nat) →
      List SupEvent × List (String × Nat)
  | [], pids => ([], pids)
  | s :: rest, pids =>
    match res s.name with
    | some pid =>
        let next := startLoop res rest (pids ++ [(s.name, pid)])
        (SupEvent.spawned s.name pid :: next.1, next.2)
    | none =>
        let next := startLoop res rest pids
        (SupEvent.spawnFailed s.name :: next.1, next.2)

/-- The whole of `main()`: the spawn loop, then the single
`fs.writeFileSync('mcp-pids.json', ...)`. -/
def startAllTrace (servers : List StartServer) (res : String → Option Nat) :
    List SupEvent :=
  let r := startLoop res servers []
  r.1 ++ [SupEvent.writeManifest r.2]

/-- One spawn-attempt event per server, in order. -/
def spawnEventsOf (servers : List StartServer) (res : String → Option Nat) :
    List SupEvent :=
  servers.map (fun s =>
    match res s.name with
    | some pid => SupEvent.spawned s.name pid
    | none => SupEvent.spawnFailed s.name)

/-- The manifest entries collected by the loop: one per successful spawn. -/
def manifestEntriesOf (servers : List StartServer)
    (res : String → Option Nat) : List (String × Nat) :=
  servers.filterMap (fun s => (res s.name).map (fun pid => (s.name, pid)))

/-- Whether every spawn event is immediately followed by a manifest
write — the persistence discipline the specification describes. -/
def persistedAfterEachSpawn : List SupEvent → Bool
  | [] => true
  | SupEvent.spawned _ _ :: rest =>
      (match rest with
       | SupEvent.writeManifest _ :: _ => true
       | _ => false) && persistedAfterEachSpawn rest
  | _ :: rest => persistedAfterEachSpawn rest

def isWriteManifest : SupEvent → Bool
  | SupEvent.writeManifest _ => true
  | _ => false

/-! ## Orchestrator: `ensureMCPServersRunning` (`part_016` lines 33-97)

Per server, `ps aux | grep <check>` decides liveness (`alive` below maps a
check pattern to that probe's outcome); if all are running the function
returns early; otherwise exactly the servers whose status is `false` are
started via `npm run <start>`.  The returned list is the `start` scripts
spawned. -/

structure ServerSpec where
  name : String
  check : String
  start : String

def servers016 : List ServerSpec :=
  [ ⟨"filesystem", "server-filesystem", "mcp-fs"⟩,
    ⟨"puppeteer", "server-puppeteer", "mcp-puppeteer"⟩,
    ⟨"github", "server-github", "mcp-github"⟩,
    ⟨"webresearch", "mcp-webresearch", "mcp-webresearch"⟩,
    ⟨"fetch", "mcprouter.*928gi2m8xwtay9", "mcp-fetch"⟩,
    ⟨"sequentialthinking", "mcprouter.*76e32um8xwucnc", "mcp-sequential"⟩ ]

/-- The `serverStatus` record keyed by server name. -/
def serverStatusOf (alive : String → Bool) : List (String × Bool) :=
  servers016.map (fun s => (s.name, alive s.check))

/-- `ensureMCPServersRunning`: early return when all are running, else
spawn each server whose recorded status is `false`. -/
def ensureMCPServersRunning (alive : String → Bool) : List String :=
  let serverStatus := serverStatusOf alive
  let allRunning := serverStatus.all (fun p => p.2)
  if allRunning then []
  else
    (servers016.filter
      (fun s => !((serverStatus.lookup s.name).getD false))).map
      (fun s => s.start)

/-! ## The `cursor-mcp-init.js` entry gate (lines 51-97, 226-248)

`isAnyMCPServerRunning()` greps for any of seven patterns; without
`--force` the script exits before spawning anything when any pattern is
live, and otherwise starts all six background commands. -/

def initGatePatterns : List String :=
  [ "server-filesystem", "mcp-webresearch", "server-github",
    "server-puppeteer", "mcprouter", "sequentialthinking", "fetch" ]

def isAnyMCPServerRunning (alive : String → Bool) : Bool :=
  initGatePatterns.any alive

/-- The `startCommands` literal (lines 226-233). -/
def initStartCommands (workspaceGlob : String) : List String :=
  [ "npx -y @modelcontextprotocol/server-filesystem \"" ++ workspaceGlob
      ++ "\"",
    "npx -y @modelcontextprotocol/server-puppeteer",
    "npx -y @modelcontextprotocol/server-github",
    "npx -y @mzxrai/mcp-webresearch",
    "npx -y mcprouter",
    "npx -y mcprouter" ]

/-- The commands the init script spawns: none when the gate exits the
process (some server alive, no `--force`), otherwise all of them. -/
def cursorMcpInitSpawns (alive : String → Bool) (force : Bool)
    (workspaceGlob : String) : List String :=
  if isAnyMCPServerRunning alive && !force then []
  else initStartCommands workspaceGlob

/-! ## Credential Resolver (`cursor-mcp-init.js` lines 15-22,
`run-github-mcp.js` line 13)

Only the two synonymous environment variables are modelled; JavaScript
truthiness makes both `undefined` and the empty string count as unset. -/

structure TokenEnv where
  githubToken : Option String
  githubPersonalAccessToken : Option String
deriving DecidableEq

def truthyEnv : Option String → Bool
  | none => false
  | some s => decide (s ≠ "")

/-- The two sequential `if` statements of `cursor-mcp-init.js` lines 17-22
mirroring each variable onto the other. -/
def mirrorGithubTokens (e : TokenEnv) : TokenEnv :=
  let e1 :=
    if truthyEnv e.githubToken && !truthyEnv e.githubPersonalAccessToken then
      { e with githubPersonalAccessToken := e.githubToken }
    else e
  if truthyEnv e1.githubPersonalAccessToken && !truthyEnv e1.githubToken then
    { e1 with githubToken := e1.githubPersonalAccessToken }
  else e1

/-- `const githubToken = process.env.GITHUB_TOKEN ||
process.env.GITHUB_PERSONAL_ACCESS_TOKEN;` (`run-github-mcp.js`). -/
def resolveGithubToken (e : TokenEnv) : Option String :=
  if truthyEnv e.githubToken then e.githubToken
  else e.githubPersonalAccessToken

/-! ## `stop-all-mcp.js` (lines 8-43): the manifest phase

The parsed `mcp-pids.json` drives a `for (const \x7b name, pid \x7d of
pids)` loop whose body wraps each `kill -9` in its own `try`; only after
the loop does `fs.unlinkSync(pidFilePath)` run.  The surrounding `try`
catches a parse error, a non-iterable parsed value (the `for...of`
TypeError) and a `null` element (destructuring TypeError), skipping the
unlink in those cases.  Input: `none` when the file does not exist,
`some (.error e)` when `JSON.parse` throws, `some (.ok v)` otherwise. -/

inductive StopEv where
  | killAttempt (ok : Bool) : StopEv
  | unlinkManifest : StopEv
deriving DecidableEq

/-- `for...of` iterability: arrays iterate their elements, strings iterate
their characters, everything else throws a TypeError. -/
def jsIterate : JsVal → Option (List JsVal)
  | .arr xs => some xs
  | .str s => some (s.data.map (fun c => JsVal.str (String.mk [c])))
  | _ => none

/-- Destructuring `const \x7b name, pid \x7d = e` in the loop head:
throws (`none`) on `null`, otherwise yields the `pid` property
(`undefined` on non-objects). -/
def destructureNamePid : JsVal → Option (Option JsVal)
  | .null => none
  | .obj fs => some (getField fs "pid")
  | _ => some none

/-- The kill loop: one `killAttempt` per successfully destructured entry
(`ok` when the pid names a live process; the `catch` makes a failed kill
non-fatal); the `Bool` records whether the loop ran to completion rather
than throwing out to the outer `catch`. -/
def killLoop (alive : Int → Bool) : List JsVal → List StopEv × Bool
  | [] => ([], true)
  | e :: rest =>
    match destructureNamePid e with
    | none => ([], false)
    | some pidOpt =>
      let ok := match pidOpt with
        | some (.num p) => alive p
        | _ => false
      let next := killLoop alive rest
      (StopEv.killAttempt ok :: next.1, next.2)

/-- The manifest phase of `stop-all-mcp.js` `main()`: the events it emits,
ending with the `fs.unlinkSync(pidFilePath)` exactly when nothing threw
past the per-kill handlers. -/
def stopAllEvents (parsed : Option (Except String JsVal))
    (alive : Int → Bool) : List StopEv :=
  match parsed with
  | none => []
  | some (.error _) => []
  | some (.ok v) =>
    match jsIterate v with
    | none => []
    | some elems =>
      let r := killLoop alive elems
      r.1 ++ (if r.2 then [StopEv.unlinkManifest] else [])

/-- A well-formed manifest entry as `startAllTrace` writes it. -/
def manifestEntryVal (e : String × Int) : JsVal :=
  .obj [("name", .str e.1), ("pid", .num e.2)]

/-! ## Concrete documents used to evaluate the claims -/

/-- A persisted document whose `filesystem` entry carries a user-customised
`command` and a user-added `myNote` field. -/
def docC1 : List (String × JsVal) :=
  [("mcpServers", .obj
    [("filesystem", .obj
      [("command", .str "custom-cmd"), ("myNote", .str "keep-me")])])]

/-- A persisted document that still contains an `htmltomarkdown` server. -/
def docC2 : List (String × JsVal) :=
  [("mcpServers", .obj
    [("htmltomarkdown", .obj [("command", .str "old-cmd")])]),
   ("userTopLevel", .str "survives")]

/-! ## Association-list lemmas about the JavaScript object operations -/

theorem getField_append (a b : List (String × JsVal)) (k : String) :
    getField (a ++ b) k
      = match getField a k with
        | some v => some v
        | none => getField b k := by
  induction a with
  | nil => simp [getField]
  | cons f rest ih => by_cases h : f.1 = k <;> simp [getField, h, ih]

theorem any_key_eq_isSome (l : List (String × JsVal)) (k : String) :
    l.any (fun f => decide (f.1 = k)) = (getField l k).isSome := by
  induction l with
  | nil => simp [getField]
  | cons f rest ih => by_cases h : f.1 = k <;> simp [getField, h, ih]

theorem getField_filter_key (p : String → Bool) (l : List (String × JsVal))
    (k : String) :
    getField (l.filter (fun f => p f.1)) k
      = if p k then getField l k else none := by
  induction l with
  | nil => by_cases hp : p k <;> simp [getField, hp]
  | cons f rest ih =>
    by_cases hk : f.1 = k
    · subst hk
      cases hp : p f.1 <;> simp [List.filter_cons, getField, hp, ih]
    · cases hp : p f.1 <;> simp [List.filter_cons, getField, hp, hk, ih]

theorem getField_map_keyed (w : String → JsVal → JsVal)
    (l : List (String × JsVal)) (k : String) :
    getField (l.map (fun f => (f.1, w f.1 f.2))) k
      = (getField l k).map (fun v => w k v) := by
  induction l with
  | nil => simp [getField]
  | cons f rest ih =>
    by_cases hk : f.1 = k
    · subst hk; simp [getField, ih]
    · simp [getField, hk, ih]

theorem getField_spreadFields (a b : List (String × JsVal)) (k : String) :
    getField (spreadFields a b) k
      = match getField a k with
        | some v => some ((getField b k).getD v)
        | none => getField b k := by
  unfold spreadFields
  rw [getField_append]
  rw [getField_map_keyed (fun s v => (getField b s).getD v) a k]
  rw [getField_filter_key (fun s => !(a.any (fun g => decide (g.1 = s)))) b k]
  cases hga : getField a k with
  | some v => simp
  | none =>
    have hany : a.any (fun g => decide (g.1 = k)) = false := by
      rw [any_key_eq_isSome, hga]; rfl
    simp [hany]

theorem getField_setField_self (l : List (String × JsVal)) (k : String)
    (v : JsVal) : getField (setField l k v) k = some v := by
  unfold setField
  by_cases h : (l.any (fun f => decide (f.1 = k))) = true
  · have hfun : ∀ f ∈ l,
        (if f.1 = k then ((k, v) : String × JsVal) else f)
          = (f.1, if f.1 = k then v else f.2) := by
      intro f _
      by_cases hf : f.1 = k <;> simp [hf]
    rw [if_pos h, List.map_congr_left hfun]
    rw [getField_map_keyed (fun s v0 => if s = k then v else v0) l k]
    have hsome : (getField l k).isSome := by rw [← any_key_eq_isSome, h]
    obtain ⟨v1, hv1⟩ := Option.isSome_iff_exists.mp hsome
    simp [hv1]
  · have hnone : getField l k = none := by
      cases hg : getField l k with
      | none => rfl
      | some v0 =>
        rw [any_key_eq_isSome, hg] at h
        simp at h
    rw [if_neg h, getField_append, hnone]
    simp [getField]

theorem getField_setField_other (l : List (String × JsVal)) (k : String)
    (v : JsVal) (k' : String) (h : k' ≠ k) :
    getField (setField l k v) k' = getField l k' := by
  unfold setField
  by_cases hany : (l.any (fun f => decide (f.1 = k))) = true
  · have hfun : ∀ f ∈ l,
        (if f.1 = k then ((k, v) : String × JsVal) else f)
          = (f.1, if f.1 = k then v else f.2) := by
      intro f _
      by_cases hf : f.1 = k <;> simp [hf]
    rw [if_pos hany, List.map_congr_left hfun]
    rw [getField_map_keyed (fun s v0 => if s = k then v else v0) l k']
    cases hg : getField l k' with
    | some v0 => simp [h]
    | none => rfl
  · rw [if_neg hany, getField_append]
    cases hg : getField l k' with
    | some v0 => rfl
    | none => simp [getField, Ne.symm h]

theorem setField_setField (l : List (String × JsVal)) (k : String)
    (v w : JsVal) : setField (setField l k v) k w = setField l k w := by
  by_cases h : (l.any (fun f => decide (f.1 = k))) = true
  · unfold setField
    rw [if_pos h]
    have hkeys : (l.map (fun f => if f.1 = k then ((k, v) : String × JsVal)
        else f)).any (fun f => decide (f.1 = k)) = true := by
      rw [List.any_map]
      rcases List.any_eq_true.mp h with ⟨f, hf, hfk⟩
      apply List.any_eq_true.mpr
      refine ⟨f, hf, ?_⟩
      simp at hfk
      simp [Function.comp, hfk]
    rw [if_pos hkeys, if_pos h, List.map_map]
    apply List.map_congr_left
    intro f _
    by_cases hf : f.1 = k <;> simp [Function.comp, hf]
  · have hall : ∀ f ∈ l, f.1 ≠ k := by
      intro f hf
      intro hc
      exact h (List.any_eq_true.mpr ⟨f, hf, by simp [hc]⟩)
    unfold setField
    rw [if_neg h, if_neg h]
    have h2 : ((l ++ [(k, v)]).any (fun f => decide (f.1 = k))) = true := by
      simp
    rw [if_pos h2, List.map_append]
    have hmap : l.map (fun f => if f.1 = k then (k, w) else f) = l := by
      refine (List.map_congr_left ?_).trans (List.map_id l)
      intro f hf
      simp [hall f hf]
    simp [hmap]

theorem getField_of_mem_nodup (l : List (String × JsVal))
    (hl : (l.map Prod.fst).Nodup) (f : String × JsVal) (hf : f ∈ l) :
    getField l f.1 = some f.2 := by
  induction l with
  | nil => cases hf
  | cons g rest ih =>
    rcases List.mem_cons.mp hf with hfg | hmem
    · subst hfg; simp [getField]
    · have hg : g.1 ≠ f.1 := by
        intro hcontra
        have : g.1 ∈ rest.map Prod.fst := by
          rw [hcontra]
          exact List.mem_map_of_mem Prod.fst hmem
        exact (List.nodup_cons.mp (by simpa using hl)).1 this
      have hrest : (rest.map Prod.fst).Nodup :=
        (List.nodup_cons.mp (by simpa using hl)).2
      simp [getField, hg, ih hrest hmem]

theorem filter_key_map_keyed (p : String → Bool) (w : String → JsVal → JsVal)
    (l : List (String × JsVal)) :
    (l.map (fun f => (f.1, w f.1 f.2))).filter (fun f => p f.1)
      = (l.filter (fun f => p f.1)).map (fun f => (f.1, w f.1 f.2)) := by
  induction l with
  | nil => simp
  | cons f rest ih => cases hp : p f.1 <;> simp [List.filter_cons, hp, ih]

theorem map_keys_filter_self_eq_nil (a : List (String × JsVal))
    (w : String → JsVal → JsVal) :
    (a.map (fun f => (f.1, w f.1 f.2))).filter
      (fun f => !(a.any (fun g => decide (g.1 = f.1)))) = [] := by
  rw [filter_key_map_keyed (fun s => !(a.any (fun g => decide (g.1 = s)))) w a]
  have hfil : a.filter (fun f => !(a.any (fun g => decide (g.1 = f.1)))) = []
      := by
    rw [List.filter_eq_nil_iff]
    intro f hf
    have hany : a.any (fun g => decide (g.1 = f.1)) = true :=
      List.any_eq_true.mpr ⟨f, hf, by simp⟩
    simp [hany]
  rw [hfil]
  rfl

/-! ## Characterisation of the merge -/

theorem existingServers_mergeInit (doc S : List (String × JsVal)) :
    existingServers (mergeInit doc S) = mergedServers doc S := by
  unfold existingServers mergeInit
  rw [getField_setField_self]

theorem getField_mergedServers_ne (doc S : List (String × JsVal))
    (k : String) (hk : k ≠ "htmltomarkdown") :
    getField (mergedServers doc S) k
      = match getField S k with
        | some v => some ((getField (existingServers doc) k).getD v)
        | none => getField (existingServers doc) k := by
  unfold mergedServers mergeServersStep
  by_cases hc : truthyProp
      (getField (spreadFields S (existingServers doc)) "htmltomarkdown")
      = true
  · rw [if_pos hc]
    unfold deleteField
    rw [getField_filter_key (fun s => decide (s ≠ "htmltomarkdown")) _ k]
    rw [if_pos (by simp [hk]), getField_spreadFields]
  · rw [if_neg hc, getField_spreadFields]

theorem getField_eq_none_iff (l : List (String × JsVal)) (k : String) :
    getField l k = none ↔ ∀ f ∈ l, f.1 ≠ k := by
  induction l with
  | nil => simp [getField]
  | cons f rest ih => by_cases h : f.1 = k <;> simp [getField, h, ih]

theorem deleteField_of_getField_none (l : List (String × JsVal))
    (k : String) (h : getField l k = none) : deleteField l k = l := by
  unfold deleteField
  rw [List.filter_eq_self]
  intro f hf
  simp [(getField_eq_none_iff l k).mp h f hf]

theorem getField_some_mem (l : List (String × JsVal)) (k : String)
    (v : JsVal) (h : getField l k = some v) : (k, v) ∈ l := by
  induction l with
  | nil => simp [getField] at h
  | cons f rest ih =>
    obtain ⟨a, b⟩ := f
    by_cases hk : a = k
    · simp [getField, hk] at h
      rw [← hk, ← h]
      exact List.mem_cons_self _ _
    · simp [getField, hk] at h
      exact List.mem_cons_of_mem _ (ih h)

theorem deleteSpread_idem (S E : List (String × JsVal)) (hk : String)
    (hS : (S.map Prod.fst).Nodup) :
    deleteField (spreadFields S (deleteField (spreadFields S E) hk)) hk
      = deleteField (spreadFields S E) hk := by
  have hcomm : ∀ (l : List (String × JsVal)) (p q : (String × JsVal) → Bool),
      (l.filter q).filter p = (l.filter p).filter q := by
    intro l p q
    rw [List.filter_filter, List.filter_filter]
    exact List.filter_congr (fun a _ => Bool.and_comm _ _)
  have hidem : ∀ (l : List (String × JsVal)) (p : (String × JsVal) → Bool),
      (l.filter p).filter p = l.filter p := by
    intro l p
    rw [List.filter_filter]
    exact List.filter_congr (fun a _ => Bool.and_self _)
  have hgetR : ∀ f : String × JsVal, f ∈ S → f.1 ≠ hk →
      getField (deleteField (spreadFields S E) hk) f.1
        = some ((getField E f.1).getD f.2) := by
    intro f hf hne
    unfold deleteField
    rw [getField_filter_key (fun s => decide (s ≠ hk)) _ f.1]
    rw [if_pos (by simp [hne]), getField_spreadFields,
      getField_of_mem_nodup S hS f hf]
  have hprefix :
      (S.map (fun f => (f.1,
          (getField (deleteField (spreadFields S E) hk) f.1).getD f.2))).filter
        (fun f => decide (f.1 ≠ hk))
      = (S.map (fun f => (f.1, (getField E f.1).getD f.2))).filter
        (fun f => decide (f.1 ≠ hk)) := by
    rw [filter_key_map_keyed (fun s => decide (s ≠ hk))
      (fun s v => (getField (deleteField (spreadFields S E) hk) s).getD v) S]
    rw [filter_key_map_keyed (fun s => decide (s ≠ hk))
      (fun s v => (getField E s).getD v) S]
    apply List.map_congr_left
    intro f hf
    have hmem := List.mem_filter.mp hf
    have hne : f.1 ≠ hk := by simpa using hmem.2
    rw [hgetR f hmem.1 hne]
    rfl
  have hsplitR : deleteField (spreadFields S E) hk
      = (S.map (fun f => (f.1, (getField E f.1).getD f.2))).filter
          (fun f => decide (f.1 ≠ hk))
        ++ (E.filter
            (fun f => !(S.any (fun g => decide (g.1 = f.1))))).filter
          (fun f => decide (f.1 ≠ hk)) := by
    show (S.map (fun f => (f.1, (getField E f.1).getD f.2))
        ++ E.filter (fun f => !(S.any (fun g => decide (g.1 = f.1))))).filter
        (fun f => decide (f.1 ≠ hk)) = _
    exact List.filter_append _ _
  have hsuffix :
      (deleteField (spreadFields S E) hk).filter
          (fun f => !(S.any (fun g => decide (g.1 = f.1))))
        = (E.filter (fun f => !(S.any (fun g => decide (g.1 = f.1))))).filter
            (fun f => decide (f.1 ≠ hk)) := by
    rw [hsplitR, List.filter_append]
    rw [hcomm (S.map (fun f => (f.1, (getField E f.1).getD f.2)))
      (fun f => !(S.any (fun g => decide (g.1 = f.1))))
      (fun f => decide (f.1 ≠ hk))]
    rw [map_keys_filter_self_eq_nil S (fun s v => (getField E s).getD v)]
    rw [hcomm (E.filter (fun f => !(S.any (fun g => decide (g.1 = f.1)))))
      (fun f => !(S.any (fun g => decide (g.1 = f.1))))
      (fun f => decide (f.1 ≠ hk))]
    rw [hidem]
    rfl
  have hsplit : deleteField
        (spreadFields S (deleteField (spreadFields S E) hk)) hk
      = (S.map (fun f => (f.1,
            (getField (deleteField (spreadFields S E) hk) f.1).getD
              f.2))).filter (fun f => decide (f.1 ≠ hk))
        ++ ((deleteField (spreadFields S E) hk).filter
            (fun f => !(S.any (fun g => decide (g.1 = f.1))))).filter
          (fun f => decide (f.1 ≠ hk)) := by
    show (S.map (fun f => (f.1,
          (getField (deleteField (spreadFields S E) hk) f.1).getD f.2))
        ++ (deleteField (spreadFields S E) hk).filter
            (fun f => !(S.any (fun g => decide (g.1 = f.1))))).filter
        (fun f => decide (f.1 ≠ hk)) = _
    exact List.filter_append _ _
  rw [hsplit, hprefix, hsuffix, hidem]
  exact hsplitR.symm

theorem spread_spread_idem (S E : List (String × JsVal))
    (hS : (S.map Prod.fst).Nodup) :
    spreadFields S (spreadFields S E) = spreadFields S E := by
  have hsuf : (spreadFields S E).filter
      (fun f => !(S.any (fun g => decide (g.1 = f.1))))
      = E.filter (fun f => !(S.any (fun g => decide (g.1 = f.1)))) := by
    show (S.map (fun f => (f.1, (getField E f.1).getD f.2))
        ++ E.filter (fun f => !(S.any (fun g => decide (g.1 = f.1))))).filter
        (fun f => !(S.any (fun g => decide (g.1 = f.1)))) = _
    rw [List.filter_append]
    rw [map_keys_filter_self_eq_nil S (fun s v => (getField E s).getD v)]
    have hid : (E.filter (fun f => !(S.any (fun g => decide
        (g.1 = f.1))))).filter (fun f => !(S.any (fun g => decide
        (g.1 = f.1))))
        = E.filter (fun f => !(S.any (fun g => decide (g.1 = f.1)))) := by
      rw [List.filter_filter]
      exact List.filter_congr (fun a _ => Bool.and_self _)
    rw [hid]
    rfl
  have hpre : S.map
      (fun f => (f.1, (getField (spreadFields S E) f.1).getD f.2))
      = S.map (fun f => (f.1, (getField E f.1).getD f.2)) := by
    apply List.map_congr_left
    intro f hf
    rw [getField_spreadFields, getField_of_mem_nodup S hS f hf]
    rfl
  show S.map (fun f => (f.1, (getField (spreadFields S E) f.1).getD f.2))
      ++ (spreadFields S E).filter
        (fun f => !(S.any (fun g => decide (g.1 = f.1)))) = _
  rw [hpre, hsuf]
  rfl

theorem mergeServersStep_idem (S E : List (String × JsVal))
    (hS : (S.map Prod.fst).Nodup)
    (htr : ∀ f ∈ S, truthyVal f.2 = true) :
    mergeServersStep S (mergeServersStep S E) = mergeServersStep S E := by
  by_cases hc : truthyProp
      (getField (spreadFields S E) "htmltomarkdown") = true
  · have hR : mergeServersStep S E
        = deleteField (spreadFields S E) "htmltomarkdown" := by
      unfold mergeServersStep
      rw [if_pos hc]
    have hRh : getField (deleteField (spreadFields S E) "htmltomarkdown")
        "htmltomarkdown" = none := by
      unfold deleteField
      rw [getField_filter_key (fun s => decide (s ≠ "htmltomarkdown")) _ _]
      simp
    rw [hR]
    cases hgs : getField S "htmltomarkdown" with
    | some vS =>
      have hg2 : getField (spreadFields S
          (deleteField (spreadFields S E) "htmltomarkdown"))
          "htmltomarkdown" = some vS := by
        rw [getField_spreadFields, hgs, hRh]
        rfl
      have htv : truthyProp (some vS) = true := by
        have := htr ("htmltomarkdown", vS)
          (getField_some_mem S "htmltomarkdown" vS hgs)
        simpa [truthyProp] using this
      unfold mergeServersStep
      rw [hg2, if_pos htv]
      exact deleteSpread_idem S E "htmltomarkdown" hS
    | none =>
      have hg2 : getField (spreadFields S
          (deleteField (spreadFields S E) "htmltomarkdown"))
          "htmltomarkdown" = none := by
        rw [getField_spreadFields, hgs, hRh]
      unfold mergeServersStep
      rw [hg2, if_neg (by simp [truthyProp])]
      have hdel := deleteField_of_getField_none _ _ hg2
      rw [← hdel]
      exact deleteSpread_idem S E "htmltomarkdown" hS
  · have hR : mergeServersStep S E = spreadFields S E := by
      unfold mergeServersStep
      rw [if_neg hc]
    rw [hR]
    have hss := spread_spread_idem S E hS
    unfold mergeServersStep
    rw [hss, if_neg hc]

/-! ## Claims C1-C4: the Config Store merge and load -/

/-- C1 (counterexample): the merge does not overwrite the supplied fields of
a stored entry.  With a persisted `filesystem` entry whose `command` is
`custom-cmd`, the incoming definition supplies `command: "npx"`, yet after
the merge the whole stored entry — customised `command` included — is
unchanged, so the stored `command` is not the supplied one. -/
theorem c1_counterexample :
    getField (existingServers (mergeInit docC1 (defaultServers "g")))
        "filesystem"
      = some (JsVal.obj [("command", JsVal.str "custom-cmd"),
          ("myNote", JsVal.str "keep-me")])
    ∧ (match getField (defaultServers "g") "filesystem" with
        | some (JsVal.obj fs) => getField fs "command"
        | _ => none) = some (JsVal.str "npx")
    ∧ "custom-cmd" ≠ "npx" :=
  ⟨rfl, rfl, by decide⟩

/-- C1 (amended): merging inserts each incoming entry whose name is absent
from the stored document; for a name already present, the stored entry is
kept wholesale — no incoming field overwrites it, so every key stored under
that server name survives unchanged (except for the name `htmltomarkdown`,
which is deleted outright). -/
theorem c1_merge_keeps_stored_entry (doc S : List (String × JsVal))
    (name : String) (hname : name ≠ "htmltomarkdown") :
    (getField (existingServers doc) name = none →
      getField (existingServers (mergeInit doc S)) name = getField S name)
    ∧ (∀ d : JsVal, getField (existingServers doc) name = some d →
      getField (existingServers (mergeInit doc S)) name = some d) := by
  constructor
  · intro h
    rw [existingServers_mergeInit, getField_mergedServers_ne doc S name hname,
      h]
    cases hs : getField S name <;> simp
  · intro d h
    rw [existingServers_mergeInit, getField_mergedServers_ne doc S name hname,
      h]
    cases hs : getField S name <;> simp

/-- Witness for the amended C1: on the concrete `docC1`, the stored
`filesystem` entry survives verbatim and the absent `github` entry is
inserted from the incoming set. -/
theorem c1_merge_keeps_stored_entry_witness :
    getField (existingServers (mergeInit docC1 (defaultServers "g")))
        "filesystem"
      = some (JsVal.obj [("command", JsVal.str "custom-cmd"),
          ("myNote", JsVal.str "keep-me")])
    ∧ getField (existingServers (mergeInit docC1 (defaultServers "g")))
        "github" = getField (defaultServers "g") "github" := by
  constructor
  · exact (c1_merge_keeps_stored_entry docC1 (defaultServers "g")
      "filesystem" (by decide)).2 _ rfl
  · exact (c1_merge_keeps_stored_entry docC1 (defaultServers "g")
      "github" (by decide)).1 rfl

/-- C2 (counterexample): the `htmltomarkdown` key is present in the stored
document and absent from the incoming set, yet the merge drops it. -/
theorem c2_counterexample :
    getField (defaultServers "g") "htmltomarkdown" = none
    ∧ getField (existingServers docC2) "htmltomarkdown"
        = some (JsVal.obj [("command", JsVal.str "old-cmd")])
    ∧ getField (existingServers (mergeInit docC2 (defaultServers "g")))
        "htmltomarkdown" = none :=
  ⟨rfl, rfl, rfl⟩

/-- C2 (amended): every top-level key other than `mcpServers` is untouched
by the merge, and every server name not mentioned in the incoming set is
preserved with its stored value — except the hard-coded name
`htmltomarkdown`, which the merge always deletes. -/
theorem c2_frame_preservation (doc S : List (String × JsVal))
    (key name : String) (hkey : key ≠ "mcpServers")
    (hname : getField S name = none) (hh : name ≠ "htmltomarkdown") :
    getField (mergeInit doc S) key = getField doc key
    ∧ getField (existingServers (mergeInit doc S)) name
      = getField (existingServers doc) name := by
  constructor
  · exact getField_setField_other doc "mcpServers" _ key hkey
  · rw [existingServers_mergeInit, getField_mergedServers_ne doc S name hh,
      hname]

/-- Witness for the amended C2: the user's top-level key and an
unmentioned server name survive the concrete merge. -/
theorem c2_frame_preservation_witness :
    getField (mergeInit docC2 (defaultServers "g")) "userTopLevel"
      = some (JsVal.str "survives")
    ∧ getField (existingServers (mergeInit docC2 (defaultServers "g")))
        "someOther" = none := by
  have h := c2_frame_preservation docC2 (defaultServers "g") "userTopLevel"
    "someOther" (by decide) rfl (by decide)
  exact ⟨h.1.trans rfl, h.2.trans rfl⟩

/-- C3: merging the same incoming set twice yields the same document as
merging it once, for every persisted document and every incoming set with
distinct server names whose values are truthy (an incoming set is a
name-keyed mapping of server-definition objects, and objects are always
truthy). -/
theorem c3_merge_idempotent (doc S : List (String × JsVal))
    (hS : (S.map Prod.fst).Nodup)
    (htr : ∀ f ∈ S, truthyVal f.2 = true) :
    mergeInit (mergeInit doc S) S = mergeInit doc S := by
  have hm : mergedServers (mergeInit doc S) S = mergedServers doc S := by
    unfold mergedServers
    rw [existingServers_mergeInit]
    exact mergeServersStep_idem S (existingServers doc) hS htr
  show setField (mergeInit doc S) "mcpServers"
      (.obj (mergedServers (mergeInit doc S) S)) = mergeInit doc S
  rw [hm]
  show setField (setField doc "mcpServers" (.obj (mergedServers doc S)))
      "mcpServers" (.obj (mergedServers doc S)) = _
  rw [setField_setField]
  rfl

/-- Witness for C3 at a concrete document and the concrete incoming set. -/
theorem c3_merge_idempotent_witness :
    mergeInit (mergeInit docC1 (defaultServers "g")) (defaultServers "g")
      = mergeInit docC1 (defaultServers "g") :=
  c3_merge_idempotent docC1 (defaultServers "g") (by decide) (by decide)

/-- C4: when the on-disk contents fail to parse as JSON (an empty file
included — the empty string is not valid JSON), the loader returns the
empty ConfigDocument together with the warning flag; the parse failure is
absorbed by the `catch`, not rethrown. -/
theorem c4_load_parse_failure (e : String) :
    loadConfig (some (Except.error e)) = (emptyConfigDoc, true) := rfl

/-! ## Claim C5: how the config and the manifest are written -/

/-- C5 (counterexample): the configuration save and the manifest save are
each a single direct `fs.writeFileSync` to the final path at these concrete
inputs — not a write-temp-then-rename pair, so the saves are not atomic in
the claimed sense. -/
theorem c5_counterexample :
    isAtomicSave (saveConfigTrace "/home/u/.cursor/mcp.json"
        [("mcpServers", JsVal.obj [])]) "/home/u/.cursor/mcp.json" = false
    ∧ isAtomicSave (saveManifestTrace "mcp-pids.json" [("Filesystem", 123)])
        "mcp-pids.json" = false :=
  ⟨rfl, rfl⟩

/-- C5 (amended): every save of the ConfigDocument and of the
ProcessManifest is exactly one direct write of the deterministic
insertion-order serialization to the final path, with no rename
operation anywhere in the trace. -/
theorem c5_direct_single_write (p : String) (doc : List (String × JsVal))
    (q : String) (entries : List (String × Int)) :
    saveConfigTrace p doc = [FsOp.write p (jsonStringify (.obj doc))]
    ∧ saveManifestTrace q entries
        = [FsOp.write q (jsonStringify (manifestVal entries))]
    ∧ (∀ op ∈ saveConfigTrace p doc, ∀ src dst, op ≠ FsOp.rename src dst)
    ∧ (∀ op ∈ saveManifestTrace q entries,
        ∀ src dst, op ≠ FsOp.rename src dst) := by
  refine ⟨rfl, rfl, ?_, ?_⟩
  · intro op hop src dst
    simp [saveConfigTrace] at hop
    simp [hop]
  · intro op hop src dst
    simp [saveManifestTrace] at hop
    simp [hop]

/-! ## Claim C6: ensureRunning spawns exactly the dead servers -/

theorem lookup_serverStatusOf (alive : String → Bool) (s : ServerSpec)
    (hs : s ∈ servers016) :
    (serverStatusOf alive).lookup s.name = some (alive s.check) := by
  fin_cases hs <;> rfl

/-- C6: `ensureMCPServersRunning` (without force there is no stop) spawns
exactly the servers whose liveness probe came back false — per definition;
hence when every probe is true (as after a successful first run) it spawns
nothing; and the `cursor-mcp-init.js` entry gate likewise spawns nothing
when any server is alive, so a repeat run performs zero spawns there
too. -/
theorem c6_ensure_running_per_definition (alive : String → Bool)
    (g : String) :
    ensureMCPServersRunning alive
      = (servers016.filter (fun s => !(alive s.check))).map (fun s => s.start)
    ∧ ((∀ s ∈ servers016, alive s.check = true) →
        ensureMCPServersRunning alive = [])
    ∧ (isAnyMCPServerRunning alive = true →
        cursorMcpInitSpawns alive false g = []) := by
  have h1 : ensureMCPServersRunning alive
      = (servers016.filter (fun s => !(alive s.check))).map
          (fun s => s.start) := by
    unfold ensureMCPServersRunning
    by_cases hall : ((serverStatusOf alive).all (fun p => p.2)) = true
    · rw [if_pos hall]
      have hfil : servers016.filter (fun s => !(alive s.check)) = [] := by
        rw [List.filter_eq_nil_iff]
        intro s hs
        have := List.all_eq_true.mp hall (s.name, alive s.check)
          (List.mem_map_of_mem _ hs)
        simp at this
        simp [this]
      rw [hfil]
      rfl
    · rw [if_neg hall]
      have hfeq : servers016.filter
            (fun s => !(((serverStatusOf alive).lookup s.name).getD false))
          = servers016.filter (fun s => !(alive s.check)) := by
        apply List.filter_congr
        intro s hs
        rw [lookup_serverStatusOf alive s hs]
        rfl
      rw [hfeq]
  refine ⟨h1, ?_, ?_⟩
  · intro hall
    rw [h1]
    have hfil : servers016.filter (fun s => !(alive s.check)) = [] := by
      rw [List.filter_eq_nil_iff]
      intro s hs
      simp [hall s hs]
    rw [hfil]
    rfl
  · intro hany
    simp [cursorMcpInitSpawns, hany]

/-- Witness for C6: with every probe alive, a second run spawns nothing in
either script. -/
theorem c6_ensure_running_witness :
    ensureMCPServersRunning (fun _ => true) = []
    ∧ cursorMcpInitSpawns (fun _ => true) false "/w" = [] := by
  refine ⟨?_, ?_⟩
  · exact (c6_ensure_running_per_definition (fun _ => true) "/w").2.1
      (fun s _ => rfl)
  · exact (c6_ensure_running_per_definition (fun _ => true) "/w").2.2 rfl

/-! ## Claim C7: when the manifest gets persisted -/

theorem startLoop_spec (res : String → Option Nat) (l : List StartServer)
    (acc : List (String × Nat)) :
    startLoop res l acc = (spawnEventsOf l res, acc ++ manifestEntriesOf l res)
    := by
  induction l generalizing acc with
  | nil => simp [startLoop, spawnEventsOf, manifestEntriesOf]
  | cons s rest ih =>
    cases hr : res s.name with
    | some pid =>
      simp [startLoop, spawnEventsOf, manifestEntriesOf, hr, ih]
    | none =>
      simp [startLoop, spawnEventsOf, manifestEntriesOf, hr, ih]

/-- C7 (counterexample): in a run where every spawn succeeds, spawns are
not each followed by a manifest write — the manifest is not persisted
after every mutation. -/
theorem c7_counterexample :
    persistedAfterEachSpawn
      (startAllTrace (serversStart "/w") (fun _ => some 100)) = false := rfl

/-- C7 (amended): the spawn loop only accumulates `(name, pid)` records in
memory (there is no `startedAt` field), and the manifest file is written
exactly once, after all spawn attempts have finished. -/
theorem c7_manifest_written_once (workspaceDir : String)
    (res : String → Option Nat) :
    startAllTrace (serversStart workspaceDir) res
      = spawnEventsOf (serversStart workspaceDir) res
        ++ [SupEvent.writeManifest
            (manifestEntriesOf (serversStart workspaceDir) res)]
    ∧ (startAllTrace (serversStart workspaceDir) res).countP isWriteManifest
        = 1 := by
  have h := startLoop_spec res (serversStart workspaceDir) []
  have heq : startAllTrace (serversStart workspaceDir) res
      = spawnEventsOf (serversStart workspaceDir) res
        ++ [SupEvent.writeManifest
            (manifestEntriesOf (serversStart workspaceDir) res)] := by
    simp [startAllTrace, h]
  refine ⟨heq, ?_⟩
  rw [heq, List.countP_append]
  have h0 : (spawnEventsOf (serversStart workspaceDir) res).countP
      isWriteManifest = 0 := by
    rw [List.countP_eq_zero]
    intro ev hev
    rcases List.mem_map.mp hev with ⟨s, _, hs⟩
    cases hr : res s.name <;> rw [hr] at hs <;> simp [← hs, isWriteManifest]
  rw [h0]
  rfl

/-! ## Claims C8 and C10: the stop-all manifest phase -/

theorem killLoop_wf_entries (alive : Int → Bool)
    (entries : List (String × Int)) :
    killLoop alive (entries.map manifestEntryVal)
      = (entries.map (fun e => StopEv.killAttempt (alive e.2)), true) := by
  induction entries with
  | nil => rfl
  | cons e rest ih =>
    simp [killLoop, manifestEntryVal, destructureNamePid, getField, ih]

/-- C8: for a well-formed manifest, each entry produces exactly one kill
attempt whose outcome is the pid's liveness — a dead pid yields
`killAttempt false` (the caught error, not an exception), every following
entry is still processed, and the manifest file is removed at the end. -/
theorem c8_stop_handles_dead_pids (entries : List (String × Int))
    (alive : Int → Bool) :
    stopAllEvents
        (some (Except.ok (JsVal.arr (entries.map manifestEntryVal)))) alive
      = entries.map (fun e => StopEv.killAttempt (alive e.2))
        ++ [StopEv.unlinkManifest] := by
  simp [stopAllEvents, jsIterate, killLoop_wf_entries]

/-- C10 (counterexample): `JSON.parse` succeeds on `\x7b\x7d`, but the
parsed value is not iterable, the `for...of` TypeError is caught by the
outer handler, and the manifest file is never unlinked — refuting the
claim for this successfully-parsed manifest. -/
theorem c10_counterexample :
    StopEv.unlinkManifest ∉
      stopAllEvents (some (Except.ok (JsVal.obj []))) (fun _ => false) := by
  decide

/-- C10 (amended): when the manifest parses to an array of entry objects,
the file is unlinked after the kill loop — even when every individual kill
attempt failed — so the unlink is the final event; if the parsed value is
not iterable, the caught TypeError skips the unlink. -/
theorem c10_unlink_despite_failed_kills (entries : List (String × Int))
    (alive : Int → Bool) :
    (stopAllEvents
        (some (Except.ok (JsVal.arr (entries.map manifestEntryVal))))
        alive).getLast? = some StopEv.unlinkManifest := by
  simp [stopAllEvents, jsIterate, killLoop_wf_entries]

/-! ## Claim C9: credential resolution and mirroring -/

/-- C9: with the primary variable unset (or empty) and the credential
present only under the alternate name, resolution returns that value and
the mirroring pass leaves both variables set to it. -/
theorem c9_alternate_token_resolved_and_mirrored (e : TokenEnv) (v : String)
    (hv : v ≠ "") (h1 : truthyEnv e.githubToken = false)
    (h2 : e.githubPersonalAccessToken = some v) :
    resolveGithubToken e = some v
    ∧ (mirrorGithubTokens e).githubToken = some v
    ∧ (mirrorGithubTokens e).githubPersonalAccessToken = some v := by
  have htr : truthyEnv e.githubPersonalAccessToken = true := by
    simp [h2, truthyEnv, hv]
  have hv2 : truthyEnv (some v) = true := by simp [truthyEnv, hv]
  refine ⟨?_, ?_, ?_⟩
  · simp [resolveGithubToken, h1, h2]
  · simp [mirrorGithubTokens, h1, htr, h2, hv2]
  · simp [mirrorGithubTokens, h1, htr, h2, hv2]

/-- Witness for C9 at the concrete environment where only the alternate
variable holds a token. -/
theorem c9_alternate_token_witness :
    resolveGithubToken ⟨none, some "tok"⟩ = some "tok"
    ∧ (mirrorGithubTokens ⟨none, some "tok"⟩).githubToken = some "tok"
    ∧ (mirrorGithubTokens
        ⟨none, some "tok"⟩).githubPersonalAccessToken = some "tok" :=
  c9_alternate_token_resolved_and_mirrored ⟨none, some "tok"⟩ "tok"
    (by decide) rfl rfl

end CursorAutomation
